import Mathlib

/-
Verification development for the betting transaction bot
(aiogram-based Telegram front-end over a betting-payments backend).

The Python sources are shallowly embedded: Python dicts become
insertion-ordered association lists, aiogram FSMContext state becomes an
explicit record, handler coroutines become pure functions threading that
record plus an explicit trace of external calls, and library calls whose
outcome the handler merely consumes (Telegram downloads, backend HTTP
responses) become oracle parameters.
-/

set_option autoImplicit false

namespace BettingBot

/-! ## Insertion-ordered association lists (model of Python dict)

Python dicts keep insertion order and have unique keys; assigning to an
existing key updates the value in place, assigning to a fresh key appends.
`pget` is `dict.get`, `pset` is `dict[k] = v`, `pvals` is `dict.values()`.
-/

def pget {K V : Type} [DecidableEq K] : List (K × V) → K → Option V
  | [], _ => none
  | (k', v) :: rest, k => if k' = k then some v else pget rest k

def pset {K V : Type} [DecidableEq K] : List (K × V) → K → V → List (K × V)
  | [], k, v => [(k, v)]
  | (k', v') :: rest, k, v =>
      if k' = k then (k, v) :: rest else (k', v') :: pset rest k v

def pkeys {K V : Type} (d : List (K × V)) : List K := d.map Prod.fst

def pvals {K V : Type} (d : List (K × V)) : List V := d.map Prod.snd

/-! ## Python floats and `validate_amount` (src/app/utils/validators.py)

Python `float` values are modelled as exact rationals plus the three
non-finite values.  IEEE comparison semantics carry over: every ordered
comparison involving NaN is false.  The binary64 rounding of decimal
literals is not modelled; the string-level parser below is therefore only
applied at inputs whose value is exactly representable, where Python and
the model agree.
-/

inductive PyFloat where
  | finite (q : ℚ)
  | nan
  | inf
  | ninf
  deriving DecidableEq, Repr

/-- IEEE less-or-equal on the float model: any comparison with NaN is
false. -/
def pyLe : PyFloat → PyFloat → Bool
  | .nan, _ => false
  | _, .nan => false
  | .finite q, .finite r => decide (q ≤ r)
  | .finite _, .inf => true
  | .finite _, .ninf => false
  | .inf, .inf => true
  | .inf, _ => false
  | .ninf, _ => true

/-- IEEE strictly-greater on the float model: any comparison with NaN is
false. -/
def pyGt : PyFloat → PyFloat → Bool
  | .nan, _ => false
  | _, .nan => false
  | .finite q, .finite r => decide (r < q)
  | .finite _, .inf => false
  | .finite _, .ninf => true
  | .inf, .inf => false
  | .inf, _ => true
  | .ninf, _ => false

/-- Result triple of `validate_amount`: (is_valid, amount_value,
error_message). -/
structure AmountResult where
  isValid : Bool
  value : Option PyFloat
  errorMsg : Option String
  deriving DecidableEq, Repr

/-- Embedding of `validate_amount` (validators.py lines 22-36).  The
argument is the outcome of the Python `float(amount_str)` library call:
`.error ()` models the `ValueError` branch, `.ok x` the parsed float. -/
def validate_amount : Except Unit PyFloat → AmountResult
  | .error _ =>
      ⟨false, none, some "Invalid amount format. Please enter a number."⟩
  | .ok amount =>
      if pyLe amount (.finite 0) then
        ⟨false, none, some "Amount must be greater than 0"⟩
      else if pyGt amount (.finite 1000000) then
        ⟨false, none, some "Amount exceeds maximum limit"⟩
      else
        ⟨true, some amount, none⟩

/-- Python `str.strip()` on a character list: drop whitespace at both
ends. -/
def stripWs (cs : List Char) : List Char :=
  ((cs.dropWhile Char.isWhitespace).reverse.dropWhile Char.isWhitespace).reverse

def decDigits? : List Char → Option ℕ
  | [] => none
  | cs =>
      if cs.all Char.isDigit then
        some (cs.foldl (fun n c => 10 * n + (c.toNat - 48)) 0)
      else none

def decCore? (cs : List Char) : Option ℚ :=
  match cs.splitOn '.' with
  | [ds] => (decDigits? ds).map (fun n => (n : ℚ))
  | [ds, fs] =>
      if ds.isEmpty ∧ fs.isEmpty then none
      else if (ds ++ fs).all Char.isDigit then
        (decDigits? (ds ++ fs)).map (fun n => (n : ℚ) / (10 : ℚ) ^ fs.length)
      else none
  | _ => none

/-- Model of Python `float(s)` on a restricted fragment: optional sign,
then either a plain decimal literal (digits with at most one dot, at
least one digit) or the case-insensitive special words nan, inf,
infinity.  Whitespace is stripped, as `float` does.  Exponents,
underscores and binary64 rounding are outside the fragment; all concrete
strings this development evaluates the parser on lie inside it and are
exactly representable, so the model agrees with Python there. -/
def pyFloatOfString (s : String) : Except Unit PyFloat :=
  let t := stripWs (s.toList.map Char.toLower)
  let (neg, core) :=
    match t with
    | '-' :: rest => (true, rest)
    | '+' :: rest => (false, rest)
    | _ => (false, t)
  if core = "nan".toList then .ok .nan
  else if core = "inf".toList ∨ core = "infinity".toList then
    .ok (if neg then .ninf else .inf)
  else
    match decCore? core with
    | some q => .ok (.finite (if neg then -q else q))
    | none => .error ()

/-- String-level `validate_amount`, the composition actually exercised by
the handlers. -/
def validate_amountS (s : String) : AmountResult :=
  validate_amount (pyFloatOfString s)

/-! ## Paginated inline keyboards (src/app/utils/keyboards.py lines 24-68) -/

/-- One button: display text and callback data. -/
structure Button where
  text : String
  callbackData : String
  deriving DecidableEq, Repr

/-- Embedding of `build_paginated_inline_keyboard`.  `page` is an
arbitrary integer as in Python; `itemsPerPage` a positive count.  The
result is the keyboard rows plus `total_pages`.  `cbPre` stands for the
`callback_prefix` argument. -/
def build_paginated_inline_keyboard
    (items : List (String × String)) (page : Int) (itemsPerPage : ℕ)
    (cbPre : String) : List (List Button) × ℕ :=
  let totalItems := items.length
  let totalPages := if totalItems > 0 then (totalItems + itemsPerPage - 1) / itemsPerPage else 1
  let page' : Int := max 1 (min page (totalPages : Int))
  let startIdx : ℕ := (page' - 1).toNat * itemsPerPage
  let pageItems := (items.drop startIdx).take itemsPerPage
  let itemRows := pageItems.map (fun p => [Button.mk p.1 p.2])
  let navButtons : List Button :=
    (if page' > 1 then
      [⟨"◀ Prev", cbPre ++ ":page:" ++ toString (page' - 1)⟩] else []) ++
    (if page' < (totalPages : Int) then
      [⟨"Next ▶", cbPre ++ ":page:" ++ toString (page' + 1)⟩] else [])
  let keyboard := itemRows ++ (if navButtons ≠ [] then [navButtons] else [])
  (keyboard, totalPages)

/-! ## MemoryStorage FSM state data (src/app/storage/memory_storage.py)

`_state_data` maps a telegram id to a per-user dict.  `set_state_data`
creates the inner dict on demand and assigns one key; `get_state_data`
reads one key; `clear_state` pops the whole per-user dict.  The spec
operation `update_data(identity, partial_bag)` is the key-wise
application of `set_state_data` over the partial bag. -/

def get_state_data {α : Type} (st : List (Int × List (String × α)))
    (tid : Int) (key : String) : Option α :=
  match pget st tid with
  | some userState => pget userState key
  | none => none

def set_state_data {α : Type} (st : List (Int × List (String × α)))
    (tid : Int) (key : String) (v : α) : List (Int × List (String × α)) :=
  let cur := (pget st tid).getD []
  pset st tid (pset cur key v)

def clear_state {α : Type} (st : List (Int × List (String × α)))
    (tid : Int) : List (Int × List (String × α)) :=
  st.filter (fun p => p.1 ≠ tid)

/-- Spec §4.1 `update_data`: a partial bag applied key by key through
`set_state_data`. -/
def apply_update {α : Type} (st : List (Int × List (String × α)))
    (tid : Int) (upd : List (String × α)) : List (Int × List (String × α)) :=
  upd.foldl (fun s p => set_state_data s tid p.1 p.2) st

/-! ## RoleFilter (src/app/utils/filters.py lines 25-43) -/

inductive Call where
  | getUserLanguage (tid : Int)
  | getTemplate (key : String) (lang : String)
  | sendMessage (text : String)
  | editMessage (text : String)
  | getAdminToken (tid : Int)
  | gwGetDepositBanks
  | gwGetWithdrawalBanks
  | gwGetBettingSites
  | gwCreateTransaction (ttype : String)
  | gwListTransactions
  | gwUpdateTransactionStatus (txId : Int) (status : String)
  | gwAssignTransaction (txId : Int) (agentId : Int)
  | gwCreateGuestPlayer (tid : Int)
  | downloadFile (fid : String)
  | removeFile (path : String)
  deriving DecidableEq, Repr

def Call.isGateway : Call → Bool
  | .gwGetDepositBanks | .gwGetWithdrawalBanks | .gwGetBettingSites
  | .gwCreateTransaction _ | .gwListTransactions
  | .gwUpdateTransactionStatus _ _ | .gwAssignTransaction _ _
  | .gwCreateGuestPlayer _ => true
  | _ => false

/-! ## aiogram FSM context

`FSMContext` holds the current FSM state string and the data dict.
`clear` resets both, `update_data` merges keys (overwrite on collision),
`set_state` changes only the state. -/

structure FSMCtx (α : Type) where
  fsmState : Option String
  data : List (String × α)
  deriving DecidableEq, Repr

def FSMCtx.clearAll {α : Type} (_ : FSMCtx α) : FSMCtx α := ⟨none, []⟩

def FSMCtx.setSt {α : Type} (c : FSMCtx α) (s : Option String) : FSMCtx α :=
  { c with fsmState := s }

def FSMCtx.updateData {α : Type} (c : FSMCtx α) (kvs : List (String × α)) :
    FSMCtx α :=
  { c with data := kvs.foldl (fun d p => pset d p.1 p.2) c.data }

/-! ## Bag values

The per-conversation data bags hold floats, strings, ids, `None`, bank
objects, the withdraw required-fields machinery and the admin
transactions cache.  Transactions themselves are opaque backend payloads,
abstracted by a type parameter `T`. -/

/-- `RequiredField` schema (api_models.py lines 29-34). -/
structure RequiredField where
  name : String
  label : String
  ftype : String
  required : Bool
  deriving DecidableEq, Repr

/-- `WithdrawalBank` schema (api_models.py lines 37-43); `requiredFields`
normalized to a list as the api client does. -/
structure WithdrawalBank where
  id : Int
  bankName : String
  requiredFields : List RequiredField
  isActive : Bool
  deriving DecidableEq, Repr

inductive Val (T : Type) where
  | pf (x : PyFloat)
  | str (s : String)
  | intv (n : Int)
  | noneV
  | bankW (b : WithdrawalBank)
  | fieldList (fs : List RequiredField)
  | fdict (d : List (String × String))
  | cache (c : List (Int × T))
  deriving DecidableEq, Repr

/-- Reading `data.get("transactions_cache", \x7b\x7d)`: only cache values
are ever stored under that key. -/
def asCache {T : Type} : Option (Val T) → List (Int × T)
  | some (.cache c) => c
  | _ => []

/-! ## Deposit flow (src/app/handlers/deposit_flow.py)

aiogram renders each state of `DepositStates` as the string
`"DepositStates:<name>"`; only that tag matters to routing. -/

def DepositStates.entering_amount : String := "DepositStates:entering_amount"
def DepositStates.selecting_betting_site : String :=
  "DepositStates:selecting_betting_site"
def DepositStates.uploading_screenshot : String :=
  "DepositStates:uploading_screenshot"
def DepositStates.confirming : String := "DepositStates:confirming"

/-- `BettingSite` schema fields the flow consumes. -/
structure BettingSite where
  id : Int
  name : String
  deriving DecidableEq, Repr

/-- External-collaborator outcomes a deposit-flow step can observe:
the stored language, the template contents the backend serves
(after the English fallback logic of TextTemplates.get_template), and
the active betting-site catalog. -/
structure DepositEnv where
  lang : String
  template : String → String → String
  bettingSites : List BettingSite

/-- Embedding of `proceed_to_betting_site` (deposit_flow.py lines
173-209) on the path where the catalog call itself succeeds; the message
texts woven around the template content are rendering and are abstracted
to the template content. -/
def proceed_to_betting_site {T : Type} (env : DepositEnv) (tid : Int)
    (ctx : FSMCtx (Val T)) : FSMCtx (Val T) × List Call :=
  let calls := [Call.getUserLanguage tid, Call.gwGetBettingSites]
  if env.bettingSites.isEmpty then
    (ctx, calls ++ [Call.getTemplate "error_no_betting_sites" env.lang,
                    Call.sendMessage (env.template "error_no_betting_sites" env.lang)])
  else
    (ctx.setSt (some DepositStates.selecting_betting_site),
     calls ++ [Call.getTemplate "deposit_select_betting_site" env.lang,
               Call.sendMessage (env.template "deposit_select_betting_site" env.lang)])

/-- Embedding of `process_amount` (deposit_flow.py lines 150-170): read
the bag, resolve language, validate the text, and either re-prompt with
the error or store the amount and move on. -/
def process_amount {T : Type} (env : DepositEnv) (tid : Int) (text : String)
    (ctx : FSMCtx (Val T)) : FSMCtx (Val T) × List Call :=
  let calls0 := [Call.getUserLanguage tid]
  let r := validate_amountS text
  if r.isValid then
    -- value is always `some` when valid (validators.py line 34)
    let ctx := ctx.updateData [("amount", Val.pf (r.value.getD .nan))]
    let (ctx, calls) := proceed_to_betting_site env tid ctx
    (ctx, calls0 ++ calls)
  else
    (ctx, calls0 ++ [Call.getTemplate "error_invalid_amount" env.lang,
                     Call.sendMessage (env.template "error_invalid_amount" env.lang)])

/-- The skip test of `handle_screenshot_text` (deposit_flow.py line
261): `message.text.lower().strip().lstrip(slash) == "skip"`. -/
def depositSkipMatch (text : String) : Bool :=
  (stripWs (text.toList.map Char.toLower)).dropWhile (fun c => c = '/')
    = "skip".toList

/-- Truthiness of `data.get("betting_site_id")`: present and a nonzero
id. -/
def truthySiteId {T : Type} : Option (Val T) → Bool
  | some (.intv n) => n ≠ 0
  | _ => false

/-- Embedding of `proceed_to_confirmation` (deposit_flow.py lines
279-323).  The summary text and the confirmation keyboard (whose builder
`build_confirmation_keyboard_async` is absent from the sources and is
modelled from its use as a pure yes/no keyboard) are rendering; the
state transition to `confirming` and the calls are kept. -/
def proceed_to_confirmation {T : Type} (env : DepositEnv) (tid : Int)
    (ctx : FSMCtx (Val T)) : FSMCtx (Val T) × List Call :=
  let siteCalls :=
    if truthySiteId (pget ctx.data "betting_site_id") then
      [Call.gwGetBettingSites] else []
  (ctx.setSt (some DepositStates.confirming),
   [Call.getUserLanguage tid] ++ siteCalls ++
   [Call.getTemplate "deposit_confirm" env.lang,
    Call.sendMessage (env.template "deposit_confirm" env.lang)])

/-- Embedding of `handle_screenshot_text` (deposit_flow.py lines
257-276): any case-insensitive skip variant advances with a null
screenshot id, anything else re-prompts for the photo. -/
def handle_screenshot_text {T : Type} (env : DepositEnv) (tid : Int)
    (text : String) (ctx : FSMCtx (Val T)) : FSMCtx (Val T) × List Call :=
  if depositSkipMatch text then
    let ctx := ctx.updateData [("screenshot_file_id", Val.noneV)]
    proceed_to_confirmation env tid ctx
  else
    (ctx, [Call.getUserLanguage tid,
           Call.getTemplate "deposit_upload_screenshot" env.lang,
           Call.sendMessage (env.template "deposit_upload_screenshot" env.lang)])

/-! ## Confirmation handlers and screenshot files (C1)

`FileService.download_telegram_file` creates the temp file before the
transfer, so a failing transfer can still leave a file behind;
`cleanup_file` unlinks if present.  The filesystem is the list of
existing temp-file paths. -/

inductive DownloadOutcome where
  | ok (path : String)
  | failBefore
  | failAfter (path : String)
  deriving DecidableEq, Repr

/-- Embedding of `FileService.download_telegram_file` (file_service.py
lines 44-61) as seen by its caller: the updated filesystem and either
the path or the raised error. -/
def download_telegram_file (d : DownloadOutcome) (fs : List String) :
    List String × Except Unit String :=
  match d with
  | .ok p => (fs ++ [p], .ok p)
  | .failBefore => (fs, .error ())
  | .failAfter p => (fs ++ [p], .error ())

/-- Embedding of `FileService.cleanup_file` (file_service.py lines
77-84): unlink when the file exists, swallow errors. -/
def cleanup_file (fs : List String) (p : String) : List String :=
  fs.filter (fun q => q ≠ p)

/-- Truthiness of `data.get("screenshot_file_id")`: a nonempty file-id
string; `None` (skip) and absence are falsy. -/
def truthyFileId {T : Type} : Option (Val T) → Option String
  | some (.str f) => if f = "" then none else some f
  | _ => none

/-- Outcomes of the external calls `confirm_deposit` and
`confirm_withdraw` await: the stored player uuid (or the guest-creation
fallback), the Telegram download, and `create_transaction`.  `T` is the
opaque created-transaction payload. -/
structure ConfirmEnv (T : Type) where
  lang : String
  playerUuid : Option String
  guestUuid : String
  download : DownloadOutcome
  createTx : Except Unit T

/-- Embedding of `confirm_deposit` (deposit_flow.py lines 326-419).
Returns the conversation state, the filesystem, and the call trace.
Success-path rendering (templates, delayed main menu) is abstracted to
the trailing message call; note that the `except` branch performs no
file cleanup. -/
def confirm_deposit {T : Type} (env : ConfirmEnv T) (tid : Int)
    (ctx : FSMCtx (Val T)) (fs : List String) :
    FSMCtx (Val T) × List String × List Call :=
  let uuidCalls :=
    match env.playerUuid with
    | some _ => []
    | none => [Call.gwCreateGuestPlayer tid]
  match truthyFileId (pget ctx.data "screenshot_file_id") with
  | some fid =>
      let (fs, res) := download_telegram_file env.download fs
      match res with
      | .error _ =>
          (ctx, fs, uuidCalls ++ [Call.downloadFile fid,
            Call.editMessage "❌ Failed to download screenshot. Please try again."])
      | .ok p =>
          match env.createTx with
          | .ok _ =>
              let fs := cleanup_file fs p
              (ctx.clearAll, fs, uuidCalls ++
                [Call.downloadFile fid, Call.gwCreateTransaction "DEPOSIT",
                 Call.removeFile p, Call.getUserLanguage tid,
                 Call.getTemplate "transaction_created" env.lang,
                 Call.editMessage "transaction created"])
          | .error _ =>
              (ctx, fs, uuidCalls ++
                [Call.downloadFile fid, Call.gwCreateTransaction "DEPOSIT",
                 Call.editMessage "❌ Failed to create deposit transaction."])
  | none =>
      match env.createTx with
      | .ok _ =>
          (ctx.clearAll, fs, uuidCalls ++
            [Call.gwCreateTransaction "DEPOSIT", Call.getUserLanguage tid,
             Call.getTemplate "transaction_created" env.lang,
             Call.editMessage "transaction created"])
      | .error _ =>
          (ctx, fs, uuidCalls ++
            [Call.gwCreateTransaction "DEPOSIT",
             Call.editMessage "❌ Failed to create deposit transaction."])

/-- Embedding of `confirm_withdraw` (withdraw_flow.py lines 292-361),
structurally identical to `confirm_deposit` with plain-string rendering
and transaction type WITHDRAW. -/
def confirm_withdraw {T : Type} (env : ConfirmEnv T) (tid : Int)
    (ctx : FSMCtx (Val T)) (fs : List String) :
    FSMCtx (Val T) × List String × List Call :=
  let uuidCalls :=
    match env.playerUuid with
    | some _ => []
    | none => [Call.gwCreateGuestPlayer tid]
  match truthyFileId (pget ctx.data "screenshot_file_id") with
  | some fid =>
      let (fs, res) := download_telegram_file env.download fs
      match res with
      | .error _ =>
          (ctx, fs, uuidCalls ++ [Call.downloadFile fid,
            Call.editMessage "❌ Failed to download screenshot. Please try again."])
      | .ok p =>
          match env.createTx with
          | .ok _ =>
              let fs := cleanup_file fs p
              (ctx.clearAll, fs, uuidCalls ++
                [Call.downloadFile fid, Call.gwCreateTransaction "WITHDRAW",
                 Call.removeFile p,
                 Call.editMessage "withdrawal transaction created"])
          | .error _ =>
              (ctx, fs, uuidCalls ++
                [Call.downloadFile fid, Call.gwCreateTransaction "WITHDRAW",
                 Call.editMessage "❌ Failed to create withdrawal transaction."])
  | none =>
      match env.createTx with
      | .ok _ =>
          (ctx.clearAll, fs, uuidCalls ++
            [Call.gwCreateTransaction "WITHDRAW",
             Call.editMessage "withdrawal transaction created"])
      | .error _ =>
          (ctx, fs, uuidCalls ++
            [Call.gwCreateTransaction "WITHDRAW",
             Call.editMessage "❌ Failed to create withdrawal transaction."])

/-! ## Withdraw flow (src/app/handlers/withdraw_flow.py) -/

def WithdrawStates.entering_required_fields : String :=
  "WithdrawStates:entering_required_fields"
def WithdrawStates.entering_amount : String := "WithdrawStates:entering_amount"
def WithdrawStates.confirming : String := "WithdrawStates:confirming"

/-- Embedding of `proceed_to_amount` (withdraw_flow.py lines 154-161). -/
def proceed_to_amount {T : Type} (ctx : FSMCtx (Val T)) :
    FSMCtx (Val T) × List Call :=
  (ctx.setSt (some WithdrawStates.entering_amount),
   [Call.sendMessage "Enter the withdrawal amount:"])

/-- Embedding of `select_withdraw_bank` (withdraw_flow.py lines 74-118)
from the point the selected bank was found in the fetched catalog.  A
pydantic `requiredFields` of `None` is already normalized to the empty
list. -/
def select_withdraw_bank {T : Type} (bank : WithdrawalBank)
    (ctx : FSMCtx (Val T)) : FSMCtx (Val T) × List Call :=
  let ctx := ctx.updateData
    [("withdrawal_bank_id", Val.intv bank.id), ("bank", Val.bankW bank)]
  match bank.requiredFields with
  | [] =>
      let (ctx, calls) := proceed_to_amount ctx
      (ctx, Call.gwGetWithdrawalBanks :: calls)
  | f :: _ =>
      let ctx := ctx.updateData
        [("required_fields", Val.fieldList bank.requiredFields),
         ("current_field_index", Val.intv 0),
         ("withdrawal_fields", Val.fdict [])]
      (ctx.setSt (some WithdrawStates.entering_required_fields),
       [Call.gwGetWithdrawalBanks,
        Call.editMessage ("Please enter " ++ f.label ++ ":")])

/-- Embedding of `process_required_field` (withdraw_flow.py lines
121-151).  `none` models the uncaught KeyError/IndexError Python would
raise on a corrupted bag; the flow only ever stores indices in
`[0, len)`, so the negative-index wrap of Python never arises and
`Int.toNat` is faithful. -/
def process_required_field {T : Type} (text : String)
    (ctx : FSMCtx (Val T)) : Option (FSMCtx (Val T) × List Call) :=
  match pget ctx.data "required_fields", pget ctx.data "current_field_index" with
  | some (.fieldList requiredFields), some (.intv currentIndex) =>
      let withdrawalFields :=
        match pget ctx.data "withdrawal_fields" with
        | some (.fdict d) => d
        | _ => []
      match requiredFields[currentIndex.toNat]? with
      | none => none
      | some field =>
          let fieldValue := stripWs text.toList
          if field.required && fieldValue.isEmpty then
            some (ctx,
              [Call.sendMessage ("❌ " ++ field.label ++ " is required. Please enter a value:")])
          else
            let withdrawalFields :=
              pset withdrawalFields field.name (String.mk fieldValue)
            let ctx := ctx.updateData
              [("withdrawal_fields", Val.fdict withdrawalFields)]
            let nextIndex := currentIndex + 1
            if nextIndex < (requiredFields.length : Int) then
              match requiredFields[nextIndex.toNat]? with
              | some nextField =>
                  some (ctx.updateData
                          [("current_field_index", Val.intv nextIndex)],
                        [Call.sendMessage
                          ("Please enter " ++ nextField.label ++ ":")])
              | none => none
            else
              let ctx := ctx.updateData
                [("withdrawal_address",
                  Val.str (String.intercalate ", " (pvals withdrawalFields)))]
              let (ctx, calls) := proceed_to_amount ctx
              some (ctx, calls)
  | _, _ => none

/-- Drives `process_required_field` over a list of text inputs,
concatenating the call traces. -/
def runRequiredFields {T : Type} (inputs : List String)
    (ctx : FSMCtx (Val T)) : Option (FSMCtx (Val T) × List Call) :=
  match inputs with
  | [] => some (ctx, [])
  | t :: rest =>
      match process_required_field t ctx with
      | none => none
      | some (ctx', calls) =>
          (runRequiredFields rest ctx').map (fun p => (p.1, calls ++ p.2))

/-- Embedding of `proceed_to_withdraw_confirmation` (withdraw_flow.py
lines 269-289): render the summary, move to `confirming`. -/
def proceed_to_withdraw_confirmation {T : Type} (ctx : FSMCtx (Val T)) :
    FSMCtx (Val T) × List Call :=
  (ctx.setSt (some WithdrawStates.confirming),
   [Call.sendMessage "transaction summary"])

/-- The registration filter of `skip_withdraw_screenshot`
(withdraw_flow.py line 262): `F.text == "/skip"`, an exact match. -/
def skip_withdraw_filter (text : String) : Bool :=
  text == "/skip"

/-- Embedding of `skip_withdraw_screenshot` (withdraw_flow.py lines
262-266). -/
def skip_withdraw_screenshot {T : Type} (ctx : FSMCtx (Val T)) :
    FSMCtx (Val T) × List Call :=
  let ctx := ctx.updateData [("screenshot_file_id", Val.noneV)]
  proceed_to_withdraw_confirmation ctx

/-- Routing of a text message at the withdraw `uploading_screenshot`
step through the skip handler: the handler runs only when its filter
matches; otherwise the update falls through this handler. -/
def routeWithdrawSkip {T : Type} (text : String) (ctx : FSMCtx (Val T)) :
    Option (FSMCtx (Val T) × List Call) :=
  if skip_withdraw_filter text then some (skip_withdraw_screenshot ctx)
  else none

/-! ## Admin transaction menu (src/app/handlers/admin_menu.py) -/

/-- External-call outcomes the admin handlers observe: the stored admin
token, the id-indexed first page of `get_admin_transactions` used on a
cache miss, and the `transaction` field of the
`update_transaction_status` response (a missing field defaults to an
empty payload on the Python side; the oracle returns the defaulted
value). -/
structure AdminEnv (T : Type) where
  token : Option String
  pageTx : List (Int × T)
  updateStatus : Int → String → Except Unit T

/-- Embedding of `show_admin_menu` (admin_menu.py lines 29-82): clears
the conversation state, then renders the reply-keyboard menu from
templates. -/
def show_admin_menu {T : Type} (lang : String) (tid : Int)
    (ctx : FSMCtx (Val T)) : FSMCtx (Val T) × List Call :=
  (ctx.clearAll,
   [Call.getUserLanguage tid,
    Call.getTemplate "button_all_transactions" lang,
    Call.getTemplate "button_recent_24h" lang,
    Call.getTemplate "button_by_date" lang,
    Call.getTemplate "button_open_browser" lang,
    Call.getTemplate "button_logout" lang,
    Call.getTemplate "admin_menu_title" lang,
    Call.sendMessage "admin menu"])

/-- Embedding of `back_to_admin_menu` (admin_menu.py lines 905-919):
read the cache, clear, restore the cache when nonempty, then call
`show_admin_menu` — whose own first statement clears the state again. -/
def back_to_admin_menu {T : Type} (lang : String) (tid : Int)
    (ctx : FSMCtx (Val T)) : FSMCtx (Val T) × List Call :=
  let transactionsCache := asCache (pget ctx.data "transactions_cache")
  let ctx := ctx.clearAll
  let ctx :=
    if transactionsCache.isEmpty then ctx
    else ctx.updateData [("transactions_cache", Val.cache transactionsCache)]
  show_admin_menu lang tid ctx

/-- Embedding of `show_transaction_details` (admin_menu.py lines
520-691).  The third component is the transaction payload the detail
view renders.  On a cache hit nothing is fetched; on a miss the whole
first admin page is fetched and searched. -/
def show_transaction_details {T : Type} (env : AdminEnv T) (tid : Int)
    (transactionId : Int) (ctx : FSMCtx (Val T)) :
    FSMCtx (Val T) × List Call × Option T :=
  match env.token with
  | none => (ctx, [Call.getAdminToken tid,
                   Call.editMessage "❌ Admin session expired. Please login again."], none)
  | some _ =>
      let transactionsCache := asCache (pget ctx.data "transactions_cache")
      match pget transactionsCache transactionId with
      | some tx =>
          (ctx.updateData [("selected_transaction_id", Val.intv transactionId)],
           [Call.getAdminToken tid, Call.editMessage "transaction details"],
           some tx)
      | none =>
          match pget env.pageTx transactionId with
          | none =>
              (ctx, [Call.getAdminToken tid, Call.gwListTransactions,
                     Call.editMessage "❌ Transaction not found."], none)
          | some tx =>
              let transactionsCache := pset transactionsCache transactionId tx
              let ctx := ctx.updateData
                [("transactions_cache", Val.cache transactionsCache)]
              (ctx.updateData
                 [("selected_transaction_id", Val.intv transactionId)],
               [Call.getAdminToken tid, Call.gwListTransactions,
                Call.editMessage "transaction details"],
               some tx)

/-- Embedding of `update_status_confirm` (admin_menu.py lines 846-902):
issue the status update, overwrite the cache entry with the returned
transaction, reset the FSM state tag. -/
def update_status_confirm {T : Type} (env : AdminEnv T) (tid : Int)
    (transactionId : Int) (status : String) (ctx : FSMCtx (Val T)) :
    FSMCtx (Val T) × List Call :=
  match env.token with
  | none => (ctx, [Call.getAdminToken tid,
                   Call.editMessage "❌ Admin session expired. Please login again."])
  | some _ =>
      match env.updateStatus transactionId status with
      | .error _ =>
          (ctx, [Call.getAdminToken tid,
                 Call.gwUpdateTransactionStatus transactionId status,
                 Call.editMessage "❌ Error updating status."])
      | .ok updatedTransaction =>
          let transactionsCache := asCache (pget ctx.data "transactions_cache")
          let transactionsCache :=
            pset transactionsCache transactionId updatedTransaction
          let ctx := ctx.updateData
            [("transactions_cache", Val.cache transactionsCache)]
          (ctx.setSt none,
           [Call.getAdminToken tid,
            Call.gwUpdateTransactionStatus transactionId status,
            Call.editMessage "✅ Status Updated Successfully!"])

/-! ## Remaining definitions: C8 field-collection bookkeeping, claim-side
predicates, and concrete claim inputs -/

/-- The association list `process_required_field` accumulates when it is
fed one stripped text value per declared field, fields taken in order. -/
def zipFields (fs : List RequiredField) (ts : List String) :
    List (String × String) :=
  List.zipWith (fun f t => (f.name, String.mk (stripWs t.toList))) fs ts

/-- The user-visible prompt texts of a call trace. -/
def promptsOf (calls : List Call) : List String :=
  calls.filterMap (fun c =>
    match c with
    | .sendMessage t => some t
    | .editMessage t => some t
    | _ => none)

instance : DecidableEq (Except Unit PyFloat) := fun a b =>
  match a, b with
  | .error u, .error u' =>
      isTrue (by cases u; cases u'; rfl)
  | .ok x, .ok y =>
      if h : x = y then isTrue (by rw [h])
      else isFalse (by intro he; cases he; exact h rfl)
  | .error _, .ok _ => isFalse (fun h => Except.noConfusion h)
  | .ok _, .error _ => isFalse (fun h => Except.noConfusion h)

/-- The claim-side validity predicate of C2: the input parses as a
number x with 0 < x and x ≤ 1,000,000. -/
def claimAmountOk : PyFloat → Prop
  | .finite q => 0 < q ∧ q ≤ 1000000
  | _ => False

instance (x : PyFloat) : Decidable (claimAmountOk x) := by
  unfold claimAmountOk
  cases x <;> infer_instance

/-- C4: the failing input of the preserved-cache claim.  An identity at
the transaction list with a nonempty `transactions_cache` presses the
back-to-menu button. -/
def c4InputCtx : FSMCtx (Val String) :=
  ⟨some "AdminTransactionStates:selecting_transaction",
   [("transactions_cache", Val.cache [((101 : Int), "tx101")]),
    ("selected_transaction_id", Val.intv 101)]⟩

/-- C1 counterexample input: a confirmed deposit with an uploaded
screenshot whose download succeeds and whose `create_transaction`
raises. -/
def c1Env : ConfirmEnv Unit :=
  ⟨"en", some "uuid-1", "guest-1", .ok "tmp1", .error ()⟩

def c1Ctx : FSMCtx (Val Unit) :=
  ⟨some DepositStates.confirming,
   [("screenshot_file_id", Val.str "fid1"),
    ("amount", Val.pf (.finite 100)),
    ("betting_site_id", Val.intv 3),
    ("player_site_id", Val.str "player42"),
    ("deposit_bank_id", Val.intv 7)]⟩

/-- C8 counterexample input: a withdrawal bank declaring two required
fields that share the name "acct". -/
def c8Bank : WithdrawalBank :=
  ⟨3, "DupBank",
   [⟨"acct", "Account", "text", true⟩,
    ⟨"acct", "Account again", "text", true⟩], true⟩

/-- C8 witness input: a bank with two distinct required fields. -/
def c8WitBank : WithdrawalBank :=
  ⟨4, "TwoFieldBank",
   [⟨"account_number", "Account Number", "text", true⟩,
    ⟨"account_name", "Account Name", "text", true⟩], true⟩

/-! ## Helper lemmas -/

theorem pget_pset_self {K V : Type} [DecidableEq K]
    (d : List (K × V)) (k : K) (v : V) : pget (pset d k v) k = some v := by
  induction d with
  | nil => simp [pget, pset]
  | cons hd tl ih =>
      obtain ⟨k', v'⟩ := hd
      by_cases h : k' = k
      · simp [pget, pset, h]
      · simp [pget, pset, h, ih]

theorem pget_pset_ne {K V : Type} [DecidableEq K]
    (d : List (K × V)) (k k' : K) (v : V) (hne : k' ≠ k) :
    pget (pset d k v) k' = pget d k' := by
  induction d with
  | nil => simp [pget, pset, Ne.symm hne]
  | cons hd tl ih =>
      obtain ⟨k₀, v₀⟩ := hd
      by_cases h : k₀ = k
      · subst h
        simp [pget, pset, Ne.symm hne]
      · simp [pget, pset, h, ih]

theorem pset_fresh {K V : Type} [DecidableEq K]
    (d : List (K × V)) (k : K) (v : V) (h : pget d k = none) :
    pset d k v = d ++ [(k, v)] := by
  induction d with
  | nil => simp [pset]
  | cons hd tl ih =>
      obtain ⟨k', v'⟩ := hd
      by_cases hk : k' = k
      · simp [pget, hk] at h
      · simp only [pget, hk, if_false] at h
        simp [pset, hk, ih h]

theorem pget_append {K V : Type} [DecidableEq K]
    (d₁ d₂ : List (K × V)) (k : K) :
    pget (d₁ ++ d₂) k =
      match pget d₁ k with
      | some v => some v
      | none => pget d₂ k := by
  induction d₁ with
  | nil => simp [pget]
  | cons hd tl ih =>
      obtain ⟨k', v'⟩ := hd
      by_cases h : k' = k <;> simp [pget, h, ih]

theorem promptsOf_append (a b : List Call) :
    promptsOf (a ++ b) = promptsOf a ++ promptsOf b := by
  simp [promptsOf]

theorem runRequiredFields_cons {T : Type} (t : String) (l : List String)
    (c c2 : FSMCtx (Val T)) (cs : List Call)
    (h : process_required_field t c = some (c2, cs)) :
    runRequiredFields (t :: l) c =
      Option.map (fun p => (p.1, cs ++ p.2)) (runRequiredFields l c2) := by
  simp only [runRequiredFields, h]

theorem pget_mem_keys {K V : Type} [DecidableEq K]
    (d : List (K × V)) (k : K) (v : V) (h : pget d k = some v) :
    k ∈ pkeys d := by
  induction d with
  | nil => simp [pget] at h
  | cons hd tl ih =>
      obtain ⟨k₀, v₀⟩ := hd
      by_cases hk : k₀ = k
      · subst hk
        simp [pkeys]
      · simp only [pget, hk, if_false] at h
        simpa [pkeys] using Or.inr (ih h)

theorem get_set_state_data {α : Type}
    (st : List (Int × List (String × α))) (tid : Int) (k k' : String) (v : α) :
    get_state_data (set_state_data st tid k v) tid k' =
      if k' = k then some v else get_state_data st tid k' := by
  unfold get_state_data set_state_data
  simp only [pget_pset_self]
  by_cases h : k' = k
  · subst h
    simp [pget_pset_self]
  · rw [pget_pset_ne _ _ _ _ h, if_neg h]
    cases hc : pget st tid <;> simp [hc, pget]

/-! ## Claim theorems -/

/-- C2 counterexample: Python `float("nan")` succeeds and NaN fails
both the `<= 0` and the `> 1000000` IEEE comparisons, so
`validate_amount("nan")` returns valid with value NaN — yet NaN is not a
number x with 0 < x and x ≤ 1,000,000, where the claim demands an
invalid result with an error message. -/
theorem C2_counterexample :
    pyFloatOfString "nan" = .ok .nan ∧
    (validate_amountS "nan").isValid = true ∧
    (validate_amountS "nan").value = some .nan ∧
    ¬ claimAmountOk .nan := by
  decide

/-- C2 (amended): `validate_amount` returns valid with the parsed value
exactly when the parse succeeded and the value x fails neither IEEE
comparison `x <= 0` nor `x > 1000000`; for finite x this is
0 < x ≤ 1,000,000, but NaN is accepted as well; every other input is
invalid with a non-null error message and no value. -/
theorem C2_validate_amount_amended (r : Except Unit PyFloat) :
    ((validate_amount r).isValid = true ↔
      ∃ x, r = .ok x ∧ pyLe x (.finite 0) = false ∧
        pyGt x (.finite 1000000) = false)
    ∧ (∀ q : ℚ,
        (pyLe (.finite q) (.finite 0) = false ∧
         pyGt (.finite q) (.finite 1000000) = false) ↔ (0 < q ∧ q ≤ 1000000))
    ∧ (pyLe .nan (.finite 0) = false ∧ pyGt .nan (.finite 1000000) = false)
    ∧ (∀ x, r = .ok x → (validate_amount r).isValid = true →
        (validate_amount r).value = some x ∧
        (validate_amount r).errorMsg = none)
    ∧ ((validate_amount r).isValid = false →
        (validate_amount r).value = none ∧
        (validate_amount r).errorMsg ≠ none) := by
  refine ⟨?_, ?_, by decide, ?_, ?_⟩
  · constructor
    · intro h
      match r with
      | .error _ => simp [validate_amount] at h
      | .ok x =>
          refine ⟨x, rfl, ?_, ?_⟩
          · by_contra hb
            simp only [Bool.not_eq_false] at hb
            simp [validate_amount, hb] at h
          · by_contra hb
            simp only [Bool.not_eq_false] at hb
            by_cases h1 : pyLe x (.finite 0)
            · simp [validate_amount, h1] at h
            · simp [validate_amount, h1, hb] at h
    · rintro ⟨x, rfl, h1, h2⟩
      simp [validate_amount, h1, h2]
  · intro q
    simp [pyLe, pyGt, decide_eq_false_iff_not, not_lt, not_le]
  · rintro x rfl h
    by_cases h1 : pyLe x (.finite 0) <;>
    by_cases h2 : pyGt x (.finite 1000000) <;>
    simp_all [validate_amount]
  · intro h
    match r with
    | .error _ => simp [validate_amount]
    | .ok x =>
        by_cases h1 : pyLe x (.finite 0) <;>
        by_cases h2 : pyGt x (.finite 1000000) <;>
        simp_all [validate_amount]

/-- Witness for C2: the parse outcome of "nan" instantiates the amended
theorem and the valid branch is reached. -/
theorem C2_witness :
    pyFloatOfString "nan" = Except.ok PyFloat.nan ∧
    (validate_amount (Except.ok PyFloat.nan)).isValid = true ∧
    (validate_amount (Except.ok PyFloat.nan)).value = some PyFloat.nan := by
  have hval : (validate_amount (Except.ok PyFloat.nan)).isValid = true :=
    ((C2_validate_amount_amended (.ok .nan)).1).mpr
      ⟨.nan, rfl, by decide, by decide⟩
  refine ⟨by decide, hval, ?_⟩
  exact ((C2_validate_amount_amended (.ok .nan)).2.2.2.1 .nan rfl hval).1

/-- C5: applying a partial update through `set_state_data` and reading
back yields the superset-merge: updated keys map to the updated values,
all other keys keep their prior values; no key is deleted. -/
theorem C5_update_data_merge {α : Type}
    (st : List (Int × List (String × α))) (tid : Int)
    (upd : List (String × α)) (k : String)
    (hnodup : (pkeys upd).Nodup) :
    get_state_data (apply_update st tid upd) tid k =
      match pget upd k with
      | some v => some v
      | none => get_state_data st tid k := by
  induction upd generalizing st with
  | nil => simp [apply_update, pget]
  | cons hd rest ih =>
      obtain ⟨k₀, v₀⟩ := hd
      simp only [pkeys, List.map_cons, List.nodup_cons] at hnodup
      obtain ⟨hk₀, hrest⟩ := hnodup
      have step : apply_update st tid ((k₀, v₀) :: rest) =
          apply_update (set_state_data st tid k₀ v₀) tid rest := rfl
      rw [step, ih _ hrest]
      cases hr : pget rest k with
      | some v =>
          have hkmem : k ∈ pkeys rest := pget_mem_keys rest k v hr
          have hne : k₀ ≠ k := by
            intro he
            exact hk₀ (he ▸ hkmem)
          simp [pget, hne, hr]
      | none =>
          rw [get_set_state_data]
          by_cases he : k₀ = k
          · subst he
            simp [pget]
          · have : ¬ k = k₀ := fun h => he h.symm
            simp [pget, he, this, hr]

/-- Witness for C5: merging a two-key update into an existing bag
overwrites the collided key, keeps the untouched key, and adds the new
key. -/
theorem C5_witness :
    get_state_data
        (apply_update [((7 : Int), [("a", (1 : Int)), ("b", 2)])] 7
          [("a", 10), ("c", 30)]) 7 "b" = some 2 ∧
    get_state_data
        (apply_update [((7 : Int), [("a", (1 : Int)), ("b", 2)])] 7
          [("a", 10), ("c", 30)]) 7 "a" = some 10 := by
  constructor
  · rw [C5_update_data_merge _ _ _ _ (by decide)]
    decide
  · rw [C5_update_data_merge _ _ _ _ (by decide)]
    decide

/-- C4: the code loses the preserved key.  `back_to_admin_menu` restores
`transactions_cache` after its own `state.clear()`, but then invokes
`show_admin_menu`, whose first statement clears the state again — so
the read-back bag is empty and the cache entry is gone, contradicting
both the claim and the preservation comment in the handler itself. -/
theorem C4_cache_lost_on_back :
    asCache (pget c4InputCtx.data "transactions_cache") =
      [((101 : Int), "tx101")] ∧
    (back_to_admin_menu "en" 7 c4InputCtx).1.data = [] ∧
    asCache (pget (back_to_admin_menu "en" 7 c4InputCtx).1.data
      "transactions_cache") = [] := by
  decide

/-- C3: at the deposit amount-entry step the text "-5" (whose Python
float parse is exactly -5) yields a validation error reply, leaves the
step and the data bag unchanged, and issues no Backend Gateway call —
the only backend traffic is the localization template fetch, which lies
outside the spec §6 gateway surface. -/
theorem C3_invalid_amount (T : Type) (env : DepositEnv) (tid : Int)
    (ctx : FSMCtx (Val T))
    (h : ctx.fsmState = some DepositStates.entering_amount) :
    (process_amount (T := T) env tid "-5" ctx).1 = ctx ∧
    (process_amount (T := T) env tid "-5" ctx).1.fsmState =
      some DepositStates.entering_amount ∧
    ((process_amount (T := T) env tid "-5" ctx).2.filter Call.isGateway) = [] ∧
    Call.sendMessage (env.template "error_invalid_amount" env.lang) ∈
      (process_amount (T := T) env tid "-5" ctx).2 := by
  have hv : validate_amountS "-5" =
      ⟨false, none, some "Amount must be greater than 0"⟩ := by decide
  refine ⟨?_, ?_, ?_, ?_⟩ <;>
    simp [process_amount, hv, Call.isGateway, h]

/-- Witness for C3: a concrete context at the amount step processing
"-5". -/
theorem C3_witness :
    (⟨some DepositStates.entering_amount, []⟩ :
        FSMCtx (Val Unit)).fsmState = some DepositStates.entering_amount ∧
    (process_amount (T := Unit) ⟨"en", fun _ _ => "tpl", []⟩ 5 "-5"
        ⟨some DepositStates.entering_amount, []⟩).1 =
      ⟨some DepositStates.entering_amount, []⟩ ∧
    ((process_amount (T := Unit) ⟨"en", fun _ _ => "tpl", []⟩ 5 "-5"
        ⟨some DepositStates.entering_amount, []⟩).2.filter Call.isGateway) = [] := by
  refine ⟨rfl, ?_, ?_⟩
  · exact (C3_invalid_amount Unit ⟨"en", fun _ _ => "tpl", []⟩ 5
      ⟨some DepositStates.entering_amount, []⟩ rfl).1
  · exact (C3_invalid_amount Unit ⟨"en", fun _ _ => "tpl", []⟩ 5
      ⟨some DepositStates.entering_amount, []⟩ rfl).2.2.1

/-- C10: the withdraw skip handler fires exactly on the literal text
"/skip" (anything else falls through it with no reply and no state
change), while the deposit skip test accepts every case-insensitive
variant of skip with or without the leading slash; both record a null
screenshot file id and advance to the confirmation step. -/
theorem C10_skip_inputs (T : Type) (env : DepositEnv) (tid : Int)
    (ctx : FSMCtx (Val T)) (s : String) :
    (skip_withdraw_filter s = true ↔ s = "/skip")
    ∧ (s ≠ "/skip" → routeWithdrawSkip (T := T) s ctx = none)
    ∧ ((routeWithdrawSkip (T := T) "/skip" ctx).isSome
        ∧ (skip_withdraw_screenshot (T := T) ctx).1.fsmState =
            some WithdrawStates.confirming
        ∧ pget (skip_withdraw_screenshot (T := T) ctx).1.data
            "screenshot_file_id" = some Val.noneV)
    ∧ ((s.toList.map Char.toLower = "skip".toList ∨
        s.toList.map Char.toLower = "/skip".toList) →
        depositSkipMatch s = true
        ∧ (handle_screenshot_text (T := T) env tid s ctx).1.fsmState =
            some DepositStates.confirming
        ∧ pget (handle_screenshot_text (T := T) env tid s ctx).1.data
            "screenshot_file_id" = some Val.noneV) := by
  refine ⟨by simp [skip_withdraw_filter], ?_, ⟨?_, ?_, ?_⟩, ?_⟩
  · intro hne
    simp [routeWithdrawSkip, skip_withdraw_filter, hne]
  · simp [routeWithdrawSkip, skip_withdraw_filter]
  · simp [skip_withdraw_screenshot, proceed_to_withdraw_confirmation,
      FSMCtx.setSt, FSMCtx.updateData]
  · simp [skip_withdraw_screenshot, proceed_to_withdraw_confirmation,
      FSMCtx.setSt, FSMCtx.updateData, pget_pset_self]
  · intro hvar
    have hm : depositSkipMatch s = true := by
      unfold depositSkipMatch
      cases hvar with
      | inl h => rw [h]; decide
      | inr h => rw [h]; decide
    refine ⟨hm, ?_, ?_⟩
    · simp [handle_screenshot_text, hm, proceed_to_confirmation,
        FSMCtx.setSt, FSMCtx.updateData]
    · simp [handle_screenshot_text, hm, proceed_to_confirmation,
        FSMCtx.setSt, FSMCtx.updateData, pget_pset_self]

/-- Witness for C10: "Skip" and "/SKIP" advance the deposit flow with a
null screenshot id, while "hello" falls through the withdraw skip
handler. -/
theorem C10_witness :
    depositSkipMatch "/SKIP" = true ∧
    (handle_screenshot_text (T := Unit) ⟨"en", fun _ _ => "t", []⟩ 5 "Skip"
        ⟨some DepositStates.uploading_screenshot, []⟩).1.fsmState =
      some DepositStates.confirming ∧
    routeWithdrawSkip (T := Unit) "hello"
      ⟨some "WithdrawStates:uploading_screenshot", []⟩ = none := by
  refine ⟨?_, ?_, ?_⟩
  · exact ((C10_skip_inputs Unit ⟨"en", fun _ _ => "t", []⟩ 5
      ⟨some DepositStates.uploading_screenshot, []⟩ "/SKIP").2.2.2
        (Or.inr (by decide))).1
  · exact ((C10_skip_inputs Unit ⟨"en", fun _ _ => "t", []⟩ 5
      ⟨some DepositStates.uploading_screenshot, []⟩ "Skip").2.2.2
        (Or.inl (by decide))).2.1
  · exact (C10_skip_inputs Unit ⟨"en", fun _ _ => "t", []⟩ 5
      ⟨some "WithdrawStates:uploading_screenshot", []⟩ "hello").2.1
        (by decide)

/-- C1 counterexample: when `create_transaction` raises, the `except`
branch of `confirm_deposit` reports the error but never deletes the
downloaded temp file — it is still on disk and no cleanup call was
made, so the file is not deleted on every exit path. -/
theorem C1_counterexample :
    (confirm_deposit c1Env 9 c1Ctx []).2.1 = ["tmp1"] ∧
    Call.removeFile "tmp1" ∉ (confirm_deposit c1Env 9 c1Ctx []).2.2 := by
  decide

/-- C1 (amended): the downloaded screenshot temp file is deleted on the
successful-completion path of both confirmation handlers — after
`create_transaction` returns, `cleanup_file` unlinks it; on the
exception path the file is not deleted (see the counterexample), and
when the download itself fails no path is ever recorded. -/
theorem C1_cleanup_amended (T : Type) (env : ConfirmEnv T) (tid : Int)
    (ctx : FSMCtx (Val T)) (fs0 : List String) (p fid : String) (tx : T)
    (hfid : truthyFileId (pget ctx.data "screenshot_file_id") = some fid)
    (hdl : env.download = .ok p)
    (hcreate : env.createTx = .ok tx) :
    (p ∉ (confirm_deposit env tid ctx fs0).2.1
      ∧ Call.removeFile p ∈ (confirm_deposit env tid ctx fs0).2.2)
    ∧ (p ∉ (confirm_withdraw env tid ctx fs0).2.1
      ∧ Call.removeFile p ∈ (confirm_withdraw env tid ctx fs0).2.2) := by
  constructor
  · unfold confirm_deposit
    rw [hfid]
    simp only [download_telegram_file, hdl, hcreate]
    constructor
    · simp [cleanup_file, List.mem_filter]
    · simp
  · unfold confirm_withdraw
    rw [hfid]
    simp only [download_telegram_file, hdl, hcreate]
    constructor
    · simp [cleanup_file, List.mem_filter]
    · simp

/-- Witness for C1: a successful deposit confirmation with a downloaded
screenshot leaves no temp file behind. -/
theorem C1_witness :
    truthyFileId (pget
        (⟨some DepositStates.confirming,
          [("screenshot_file_id", Val.str "fidA")]⟩ :
            FSMCtx (Val Unit)).data "screenshot_file_id") = some "fidA" ∧
    "tmpA" ∉ (confirm_deposit
        (⟨"en", some "u", "g", .ok "tmpA", .ok ()⟩ : ConfirmEnv Unit) 9
        ⟨some DepositStates.confirming,
          [("screenshot_file_id", Val.str "fidA")]⟩ []).2.1 := by
  refine ⟨by decide, ?_⟩
  exact (C1_cleanup_amended Unit ⟨"en", some "u", "g", .ok "tmpA", .ok ()⟩ 9
    ⟨some DepositStates.confirming, [("screenshot_file_id", Val.str "fidA")]⟩
    [] "tmpA" "fidA" () (by decide) rfl rfl).1.1

/-- C7: with the transaction already in the per-identity cache, the
detail view renders the cached payload and issues zero Backend Gateway
calls; and a successful `update_status_confirm` issues exactly the one
status-update gateway call and overwrites the cache entry with the
transaction the gateway returned — no extra fetch. -/
theorem C7_cache_reuse (T : Type) (env : AdminEnv T) (tid txId : Int)
    (status : String) (ctx : FSMCtx (Val T)) (tx tx' : T)
    (htok : env.token.isSome = true)
    (hcache : pget (asCache (pget ctx.data "transactions_cache")) txId = some tx)
    (hupd : env.updateStatus txId status = .ok tx') :
    ((show_transaction_details env tid txId ctx).2.1.filter Call.isGateway = [])
    ∧ ((show_transaction_details env tid txId ctx).2.2 = some tx)
    ∧ (asCache (pget (show_transaction_details env tid txId ctx).1.data
        "transactions_cache") = asCache (pget ctx.data "transactions_cache"))
    ∧ (pget (asCache (pget (update_status_confirm env tid txId status
          (show_transaction_details env tid txId ctx).1).1.data
          "transactions_cache")) txId = some tx')
    ∧ ((update_status_confirm env tid txId status
          (show_transaction_details env tid txId ctx).1).2.filter
          Call.isGateway = [Call.gwUpdateTransactionStatus txId status]) := by
  obtain ⟨tok, hT⟩ := Option.isSome_iff_exists.mp htok
  have hdet : show_transaction_details env tid txId ctx =
      (ctx.updateData [("selected_transaction_id", Val.intv txId)],
       [Call.getAdminToken tid, Call.editMessage "transaction details"],
       some tx) := by
    simp only [show_transaction_details, hT, hcache]
  have hsel : ("transactions_cache" : String) ≠ "selected_transaction_id" := by
    decide
  have hdata : pget (ctx.updateData
      [("selected_transaction_id", Val.intv txId)]).data "transactions_cache" =
      pget ctx.data "transactions_cache" := by
    simp only [FSMCtx.updateData, List.foldl]
    exact pget_pset_ne _ _ _ _ hsel
  refine ⟨?_, ?_, ?_, ?_, ?_⟩
  · rw [hdet]
    simp [Call.isGateway]
  · rw [hdet]
  · rw [hdet]
    simp only [hdata]
  · rw [hdet]
    simp only [update_status_confirm, hT, hupd]
    simp only [FSMCtx.setSt, FSMCtx.updateData, List.foldl]
    simp only [pget_pset_self, asCache, hdata]
  · rw [hdet]
    simp only [update_status_confirm, hT, hupd]
    simp [Call.isGateway]

/-- Witness for C7: cache holds transaction 101; the detail view reads
it without a fetch and a SUCCESS status update rewrites the entry to
the returned payload. -/
theorem C7_witness :
    pget (asCache (pget
        (⟨none, [("transactions_cache", Val.cache [((101 : Int), "oldTx")])]⟩ :
          FSMCtx (Val String)).data "transactions_cache")) 101 = some "oldTx" ∧
    ((show_transaction_details
        (⟨some "tok", [], fun _ _ => .ok "newTx"⟩ : AdminEnv String) 4 101
        ⟨none, [("transactions_cache", Val.cache [((101 : Int), "oldTx")])]⟩).2.1.filter
      Call.isGateway = []) ∧
    pget (asCache (pget (update_status_confirm
        (⟨some "tok", [], fun _ _ => .ok "newTx"⟩ : AdminEnv String) 4 101
        "SUCCESS"
        (show_transaction_details
          (⟨some "tok", [], fun _ _ => .ok "newTx"⟩ : AdminEnv String) 4 101
          ⟨none, [("transactions_cache", Val.cache [((101 : Int), "oldTx")])]⟩).1).1.data
        "transactions_cache")) 101 = some "newTx" := by
  refine ⟨by decide, ?_, ?_⟩
  · exact (C7_cache_reuse String ⟨some "tok", [], fun _ _ => .ok "newTx"⟩ 4 101
      "SUCCESS" ⟨none, [("transactions_cache", Val.cache [((101 : Int), "oldTx")])]⟩
      "oldTx" "newTx" rfl (by decide) rfl).1
  · exact (C7_cache_reuse String ⟨some "tok", [], fun _ _ => .ok "newTx"⟩ 4 101
      "SUCCESS" ⟨none, [("transactions_cache", Val.cache [((101 : Int), "oldTx")])]⟩
      "oldTx" "newTx" rfl (by decide) rfl).2.2.2.1

/-- C9: the paginated keyboard builder clamps the requested page into
[1, total_pages] with total_pages the ceiling of items/page and at
least 1 even for an empty list, shows at most items_per_page singleton
item rows taken from the clamped page slice in input order (the slice
is nonempty whenever the items are), and appends one navigation row
holding a Prev button exactly when the clamped page exceeds 1 and a
Next button exactly when it is below total_pages. -/
theorem C9_pagination (items : List (String × String)) (page : Int)
    (ipp : ℕ) (cbPre : String) (hipp : 0 < ipp) :
    (1 ≤ (build_paginated_inline_keyboard items page ipp cbPre).2)
    ∧ (items.length ≤ (build_paginated_inline_keyboard items page ipp cbPre).2 * ipp)
    ∧ (items ≠ [] →
        ((build_paginated_inline_keyboard items page ipp cbPre).2 - 1) * ipp
          < items.length)
    ∧ (1 ≤ max 1 (min page
        (((build_paginated_inline_keyboard items page ipp cbPre).2 : ℕ) : Int))
      ∧ max 1 (min page
        (((build_paginated_inline_keyboard items page ipp cbPre).2 : ℕ) : Int))
          ≤ (((build_paginated_inline_keyboard items page ipp cbPre).2 : ℕ) : Int))
    ∧ (((items.drop ((max 1 (min page
          (((build_paginated_inline_keyboard items page ipp cbPre).2 : ℕ) : Int))
          - 1).toNat * ipp)).take ipp).length ≤ ipp)
    ∧ (items ≠ [] →
        (items.drop ((max 1 (min page
          (((build_paginated_inline_keyboard items page ipp cbPre).2 : ℕ) : Int))
          - 1).toNat * ipp)).take ipp ≠ [])
    ∧ (∃ nav : List Button,
        (build_paginated_inline_keyboard items page ipp cbPre).1 =
          ((items.drop ((max 1 (min page
              (((build_paginated_inline_keyboard items page ipp cbPre).2 : ℕ) : Int))
              - 1).toNat * ipp)).take ipp).map (fun p => [Button.mk p.1 p.2]) ++
          (if nav ≠ [] then [nav] else [])
        ∧ (Button.mk "◀ Prev" (cbPre ++ ":page:" ++ toString (max 1 (min page
              (((build_paginated_inline_keyboard items page ipp cbPre).2 : ℕ) : Int)) - 1))
            ∈ nav ↔ 1 < max 1 (min page
              (((build_paginated_inline_keyboard items page ipp cbPre).2 : ℕ) : Int)))
        ∧ (Button.mk "Next ▶" (cbPre ++ ":page:" ++ toString (max 1 (min page
              (((build_paginated_inline_keyboard items page ipp cbPre).2 : ℕ) : Int)) + 1))
            ∈ nav ↔ max 1 (min page
              (((build_paginated_inline_keyboard items page ipp cbPre).2 : ℕ) : Int))
              < (((build_paginated_inline_keyboard items page ipp cbPre).2 : ℕ) : Int))
        ∧ (nav ≠ [] ↔ (1 < max 1 (min page
              (((build_paginated_inline_keyboard items page ipp cbPre).2 : ℕ) : Int))
            ∨ max 1 (min page
              (((build_paginated_inline_keyboard items page ipp cbPre).2 : ℕ) : Int))
              < (((build_paginated_inline_keyboard items page ipp cbPre).2 : ℕ) : Int)))) := by
  have htp : (build_paginated_inline_keyboard items page ipp cbPre).2 =
      if items.length > 0 then (items.length + ipp - 1) / ipp else 1 := rfl
  have hA : 1 ≤ (build_paginated_inline_keyboard items page ipp cbPre).2 := by
    rw [htp]
    by_cases hl : items.length > 0
    · rw [if_pos hl]
      rw [Nat.le_div_iff_mul_le hipp]
      omega
    · rw [if_neg hl]
  have hdm := Nat.div_add_mod (items.length + ipp - 1) ipp
  have hmod := Nat.mod_lt (items.length + ipp - 1) hipp
  have hB : items.length ≤
      (build_paginated_inline_keyboard items page ipp cbPre).2 * ipp := by
    rw [htp]
    by_cases hl : items.length > 0
    · rw [if_pos hl, Nat.mul_comm]
      omega
    · rw [if_neg hl]
      omega
  have hC : items ≠ [] →
      ((build_paginated_inline_keyboard items page ipp cbPre).2 - 1) * ipp
        < items.length := by
    intro hne
    have hl : items.length > 0 := List.length_pos.mpr hne
    rw [htp, if_pos hl, Nat.sub_mul, Nat.one_mul]
    have h1 : (items.length + ipp - 1) / ipp * ipp ≤ items.length + ipp - 1 :=
      Nat.div_mul_le_self _ _
    omega
  have hD1 : 1 ≤ max 1 (min page
      (((build_paginated_inline_keyboard items page ipp cbPre).2 : ℕ) : Int)) :=
    le_max_left _ _
  have hD2 : max 1 (min page
      (((build_paginated_inline_keyboard items page ipp cbPre).2 : ℕ) : Int))
        ≤ (((build_paginated_inline_keyboard items page ipp cbPre).2 : ℕ) : Int) := by
    apply max_le
    · exact_mod_cast hA
    · exact min_le_right _ _
  have hE : ((items.drop ((max 1 (min page
      (((build_paginated_inline_keyboard items page ipp cbPre).2 : ℕ) : Int))
      - 1).toNat * ipp)).take ipp).length ≤ ipp := by
    simp [List.length_take]
  have hF : items ≠ [] →
      (items.drop ((max 1 (min page
        (((build_paginated_inline_keyboard items page ipp cbPre).2 : ℕ) : Int))
        - 1).toNat * ipp)).take ipp ≠ [] := by
    intro hne
    have hl : items.length > 0 := List.length_pos.mpr hne
    have hCc := hC hne
    have hle : (max 1 (min page
        (((build_paginated_inline_keyboard items page ipp cbPre).2 : ℕ) : Int))
        - 1).toNat ≤ (build_paginated_inline_keyboard items page ipp cbPre).2 - 1 := by
      omega
    have hstart : (max 1 (min page
        (((build_paginated_inline_keyboard items page ipp cbPre).2 : ℕ) : Int))
        - 1).toNat * ipp < items.length :=
      lt_of_le_of_lt (Nat.mul_le_mul_right _ hle) hCc
    have hpos : 0 < ((items.drop ((max 1 (min page
        (((build_paginated_inline_keyboard items page ipp cbPre).2 : ℕ) : Int))
        - 1).toNat * ipp)).take ipp).length := by
      rw [List.length_take, List.length_drop]
      exact lt_min hipp (by omega)
    exact List.length_pos.mp hpos
  refine ⟨hA, hB, hC, ⟨hD1, hD2⟩, hE, hF,
    (if 1 < max 1 (min page
        (((build_paginated_inline_keyboard items page ipp cbPre).2 : ℕ) : Int)) then
      [Button.mk "◀ Prev" (cbPre ++ ":page:" ++ toString (max 1 (min page
        (((build_paginated_inline_keyboard items page ipp cbPre).2 : ℕ) : Int)) - 1))]
    else []) ++
    (if max 1 (min page
        (((build_paginated_inline_keyboard items page ipp cbPre).2 : ℕ) : Int))
        < (((build_paginated_inline_keyboard items page ipp cbPre).2 : ℕ) : Int) then
      [Button.mk "Next ▶" (cbPre ++ ":page:" ++ toString (max 1 (min page
        (((build_paginated_inline_keyboard items page ipp cbPre).2 : ℕ) : Int)) + 1))]
    else []), rfl, ?_, ?_, ?_⟩ <;>
  · by_cases hp : 1 < max 1 (min page
        (((build_paginated_inline_keyboard items page ipp cbPre).2 : ℕ) : Int)) <;>
    by_cases hn : max 1 (min page
        (((build_paginated_inline_keyboard items page ipp cbPre).2 : ℕ) : Int))
        < (((build_paginated_inline_keyboard items page ipp cbPre).2 : ℕ) : Int) <;>
    simp [hp, hn]

/-- Witness for C9: two items with one item per page, requested page 5,
clamp to page 2 and show a Prev-only navigation row. -/
theorem C9_witness :
    (0 : ℕ) < 1 ∧
    1 ≤ (build_paginated_inline_keyboard [("a", "x:1"), ("b", "x:2")] 5 1 "x").2 ∧
    ([("a", "x:1"), ("b", "x:2")] : List (String × String)).length ≤
      (build_paginated_inline_keyboard [("a", "x:1"), ("b", "x:2")] 5 1 "x").2 * 1 := by
  refine ⟨by decide, ?_, ?_⟩
  · exact (C9_pagination [("a", "x:1"), ("b", "x:2")] 5 1 "x" (by decide)).1
  · exact (C9_pagination [("a", "x:1"), ("b", "x:2")] 5 1 "x" (by decide)).2.1

/-- Induction workhorse for C8: from any context holding the field
list, a cursor position and the fields collected so far, feeding one
nonempty stripped input per remaining field drives
`process_required_field` through the remaining fields in order,
appending each (name, stripped value) pair, and ends at the amount step
with `withdrawal_address` the comma-join of the collected values,
prompting for each later field and finally for the amount. -/
theorem runFields_go {T : Type} (rf : List RequiredField) :
    ∀ (ts : List String) (idx : ℕ) (collected : List (String × String))
      (ctx : FSMCtx (Val T)),
      pget ctx.data "required_fields" = some (.fieldList rf) →
      pget ctx.data "current_field_index" = some (.intv (idx : Int)) →
      pget ctx.data "withdrawal_fields" = some (.fdict collected) →
      idx + ts.length = rf.length →
      0 < ts.length →
      (∀ t ∈ ts, stripWs t.toList ≠ []) →
      (∀ f ∈ rf.drop idx, pget collected f.name = none) →
      ((rf.drop idx).map RequiredField.name).Nodup →
      ∃ ctxF calls,
        runRequiredFields ts ctx = some (ctxF, calls) ∧
        ctxF.fsmState = some WithdrawStates.entering_amount ∧
        pget ctxF.data "withdrawal_fields" =
          some (.fdict (collected ++ zipFields (rf.drop idx) ts)) ∧
        pget ctxF.data "withdrawal_address" =
          some (.str (String.intercalate ", "
            (pvals (collected ++ zipFields (rf.drop idx) ts)))) ∧
        promptsOf calls =
          ((rf.drop (idx + 1)).map
            (fun f => "Please enter " ++ f.label ++ ":"))
            ++ ["Enter the withdrawal amount:"] := by
  intro ts
  induction ts with
  | nil =>
      intro idx collected ctx _ _ _ _ hpos _ _ _
      simp at hpos
  | cons t rest ih =>
      intro idx collected ctx hrf hidx hwf hlen hpos hvalid hfresh hnodup
      have hlt : idx < rf.length := by
        simp only [List.length_cons] at hlen
        omega
      have hdropc : rf.drop idx = rf.get ⟨idx, hlt⟩ :: rf.drop (idx + 1) := by
        rw [List.drop_eq_getElem_cons hlt]
        rfl
      have hgetE : rf[idx]? = some (rf.get ⟨idx, hlt⟩) := by
        rw [List.getElem?_eq_getElem hlt]
        rfl
      set F := rf.get ⟨idx, hlt⟩ with hF
      set v := String.mk (stripWs t.toList) with hv
      have htv : stripWs t.toList ≠ [] := hvalid t (List.mem_cons_self t rest)
      have hfvE : (stripWs t.toList).isEmpty = false := by
        cases hsw : stripWs t.toList with
        | nil => exact absurd hsw htv
        | cons a l => rfl
      have hcond : (F.required && (stripWs t.toList).isEmpty) = false := by
        rw [hfvE, Bool.and_false]
      have hFfresh : pget collected F.name = none :=
        hfresh F (by rw [hdropc]; exact List.mem_cons_self _ _)
      have hwf' : pset collected F.name v = collected ++ [(F.name, v)] :=
        pset_fresh collected F.name v hFfresh
      cases rest with
      | nil =>
          have hlast : idx + 1 = rf.length := by
            simp only [List.length_cons, List.length_nil] at hlen
            omega
          have hcltN : ¬ (idx + 1 < rf.length) := by omega
          have hclt : ¬ ((idx : Int) + 1 < (rf.length : Int)) := by
            exact_mod_cast hcltN
          have hpr : process_required_field t ctx = some
              (((ctx.updateData
                    [("withdrawal_fields",
                      Val.fdict (collected ++ [(F.name, v)]))]).updateData
                  [("withdrawal_address",
                    Val.str (String.intercalate ", "
                      (pvals (collected ++ [(F.name, v)]))))]).setSt
                (some WithdrawStates.entering_amount),
               [Call.sendMessage "Enter the withdrawal amount:"]) := by
            simp only [process_required_field, hrf, hidx, hwf,
              Int.toNat_natCast, hgetE, ← hF, ← hv, hcond, Bool.false_eq_true,
              if_false, hwf', if_neg hclt, proceed_to_amount]
          refine ⟨((ctx.updateData
              [("withdrawal_fields",
                Val.fdict (collected ++ [(F.name, v)]))]).updateData
              [("withdrawal_address",
                Val.str (String.intercalate ", "
                  (pvals (collected ++ [(F.name, v)]))))]).setSt
              (some WithdrawStates.entering_amount),
            [Call.sendMessage "Enter the withdrawal amount:"],
            ?_, rfl, ?_, ?_, ?_⟩
          · rw [runRequiredFields_cons t [] ctx _ _ hpr]
            rfl
          · show pget (pset (pset ctx.data "withdrawal_fields"
                (Val.fdict (collected ++ [(F.name, v)]))) "withdrawal_address"
                (Val.str _)) "withdrawal_fields" = _
            rw [pget_pset_ne _ _ _ _ (by decide), pget_pset_self, hdropc]
            simp [zipFields, hv]
          · show pget (pset (pset ctx.data "withdrawal_fields"
                (Val.fdict (collected ++ [(F.name, v)]))) "withdrawal_address"
                (Val.str _)) "withdrawal_address" = _
            rw [pget_pset_self, hdropc]
            simp [zipFields, hv]
          · have hde : rf.drop (idx + 1) = [] :=
              List.drop_eq_nil_of_le (le_of_eq hlast.symm)
            rw [hde]
            simp [promptsOf]
      | cons r rest' =>
          have hlt2 : idx + 1 < rf.length := by
            simp only [List.length_cons] at hlen
            omega
          have hclt : ((idx : Int) + 1 < (rf.length : Int)) := by
            exact_mod_cast hlt2
          have hgetE2 : rf[idx + 1]? = some (rf.get ⟨idx + 1, hlt2⟩) := by
            rw [List.getElem?_eq_getElem hlt2]
            rfl
          set F2 := rf.get ⟨idx + 1, hlt2⟩ with hF2
          have htn : ((idx : Int) + 1).toNat = idx + 1 := by omega
          have hpr : process_required_field t ctx = some
              (((ctx.updateData
                  [("withdrawal_fields",
                    Val.fdict (collected ++ [(F.name, v)]))]).updateData
                [("current_field_index", Val.intv ((idx : Int) + 1))]),
               [Call.sendMessage ("Please enter " ++ F2.label ++ ":")]) := by
            simp only [process_required_field, hrf, hidx, hwf,
              Int.toNat_natCast, hgetE, ← hF, ← hv, hcond, Bool.false_eq_true,
              if_false, hwf', if_pos hclt, htn, hgetE2, ← hF2]
          have hd2 : ((ctx.updateData
              [("withdrawal_fields",
                Val.fdict (collected ++ [(F.name, v)]))]).updateData
              [("current_field_index", Val.intv ((idx : Int) + 1))]).data =
              pset (pset ctx.data "withdrawal_fields"
                (Val.fdict (collected ++ [(F.name, v)])))
                "current_field_index" (Val.intv ((idx : Int) + 1)) := rfl
          have hcast : (((idx + 1 : ℕ)) : Int) = (idx : Int) + 1 := by
            push_cast
            ring
          have hrf2 : pget ((ctx.updateData
              [("withdrawal_fields",
                Val.fdict (collected ++ [(F.name, v)]))]).updateData
              [("current_field_index", Val.intv ((idx : Int) + 1))]).data
              "required_fields" = some (Val.fieldList rf) := by
            rw [hd2, pget_pset_ne _ _ _ _ (by decide),
              pget_pset_ne _ _ _ _ (by decide)]
            exact hrf
          have hidx2 : pget ((ctx.updateData
              [("withdrawal_fields",
                Val.fdict (collected ++ [(F.name, v)]))]).updateData
              [("current_field_index", Val.intv ((idx : Int) + 1))]).data
              "current_field_index" = some (Val.intv ((idx + 1 : ℕ) : Int)) := by
            rw [hd2, pget_pset_self, hcast]
          have hwf2 : pget ((ctx.updateData
              [("withdrawal_fields",
                Val.fdict (collected ++ [(F.name, v)]))]).updateData
              [("current_field_index", Val.intv ((idx : Int) + 1))]).data
              "withdrawal_fields" =
              some (Val.fdict (collected ++ [(F.name, v)])) := by
            rw [hd2, pget_pset_ne _ _ _ _ (by decide), pget_pset_self]
          have hlen2 : (idx + 1) + (r :: rest').length = rf.length := by
            simp only [List.length_cons] at hlen ⊢
            omega
          have hpos2 : 0 < (r :: rest').length := by simp
          have hvalid2 : ∀ t' ∈ (r :: rest'), stripWs t'.toList ≠ [] :=
            fun t' ht' => hvalid t' (List.mem_cons_of_mem _ ht')
          have hnamene : ∀ f ∈ rf.drop (idx + 1), F.name ≠ f.name := by
            intro f hf
            have hnd := hnodup
            rw [hdropc] at hnd
            simp only [List.map_cons, List.nodup_cons] at hnd
            intro he
            exact hnd.1 (he ▸ List.mem_map_of_mem RequiredField.name hf)
          have hfresh2 : ∀ f ∈ rf.drop (idx + 1),
              pget (collected ++ [(F.name, v)]) f.name = none := by
            intro f hf
            have h1 : pget collected f.name = none :=
              hfresh f (by rw [hdropc]; exact List.mem_cons_of_mem _ hf)
            rw [pget_append, h1]
            simp [pget, hnamene f hf]
          have hnodup2 : ((rf.drop (idx + 1)).map RequiredField.name).Nodup := by
            have hnd := hnodup
            rw [hdropc] at hnd
            simp only [List.map_cons, List.nodup_cons] at hnd
            exact hnd.2
          obtain ⟨ctxF, callsF, hrun, hst, hwfF, haddrF, hpromF⟩ :=
            ih (idx + 1) (collected ++ [(F.name, v)]) _ hrf2 hidx2 hwf2
              hlen2 hpos2 hvalid2 hfresh2 hnodup2
          refine ⟨ctxF,
            [Call.sendMessage ("Please enter " ++ F2.label ++ ":")] ++ callsF,
            ?_, hst, ?_, ?_, ?_⟩
          · rw [runRequiredFields_cons t (r :: rest') ctx _ _ hpr, hrun]
            rfl
          · rw [hwfF, hdropc]
            simp [zipFields, hv, List.append_assoc]
          · rw [haddrF, hdropc]
            simp [zipFields, hv, List.append_assoc]
          · rw [promptsOf_append, hpromF]
            have hde : rf.drop (idx + 1) = F2 :: rf.drop (idx + 1 + 1) := by
              rw [List.drop_eq_getElem_cons hlt2]
              rfl
            rw [hde]
            simp [promptsOf]

/-- C8 (amended): for a selected bank whose declared required-fields
list is nonempty and has pairwise-distinct field names, the flow prompts
for the fields in declaration order, one nonempty text input per field,
lands on the amount step exactly after the last field, and stores every
stripped value keyed by its field name with `withdrawal_address` the
comma-separated join of the values; a bank with no required fields goes
directly to the amount step. -/
theorem C8_required_fields_amended {T : Type} (bank : WithdrawalBank)
    (ts : List String) (ctx0 : FSMCtx (Val T))
    (hnodup : (bank.requiredFields.map RequiredField.name).Nodup)
    (hlen : ts.length = bank.requiredFields.length)
    (hpos : 0 < ts.length)
    (hvalid : ∀ t ∈ ts, stripWs t.toList ≠ []) :
    (∃ ctxF calls,
      runRequiredFields ts (select_withdraw_bank bank ctx0).1 =
        some (ctxF, calls)
      ∧ ctxF.fsmState = some WithdrawStates.entering_amount
      ∧ pget ctxF.data "withdrawal_fields" =
          some (.fdict (zipFields bank.requiredFields ts))
      ∧ pget ctxF.data "withdrawal_address" =
          some (.str (String.intercalate ", "
            (pvals (zipFields bank.requiredFields ts))))
      ∧ promptsOf ((select_withdraw_bank bank ctx0).2 ++ calls) =
          (bank.requiredFields.map
            (fun f => "Please enter " ++ f.label ++ ":"))
            ++ ["Enter the withdrawal amount:"])
    ∧ (∀ bank' : WithdrawalBank, bank'.requiredFields = [] →
        (select_withdraw_bank (T := T) bank' ctx0).1.fsmState =
          some WithdrawStates.entering_amount) := by
  constructor
  · obtain ⟨f0, fs, hbf⟩ : ∃ f0 fs, bank.requiredFields = f0 :: fs := by
      cases hbf : bank.requiredFields with
      | nil =>
          rw [hbf, List.length_nil] at hlen
          omega
      | cons a l => exact ⟨a, l, rfl⟩
    have hsel : select_withdraw_bank bank ctx0 =
        (((ctx0.updateData
            [("withdrawal_bank_id", Val.intv bank.id),
             ("bank", Val.bankW bank)]).updateData
            [("required_fields", Val.fieldList (f0 :: fs)),
             ("current_field_index", Val.intv 0),
             ("withdrawal_fields", Val.fdict [])]).setSt
          (some WithdrawStates.entering_required_fields),
         [Call.gwGetWithdrawalBanks,
          Call.editMessage ("Please enter " ++ f0.label ++ ":")]) := by
      simp only [select_withdraw_bank, hbf]
    have hdata : (select_withdraw_bank bank ctx0).1.data =
        pset (pset (pset (pset (pset ctx0.data
          "withdrawal_bank_id" (Val.intv bank.id))
          "bank" (Val.bankW bank))
          "required_fields" (Val.fieldList (f0 :: fs)))
          "current_field_index" (Val.intv 0))
          "withdrawal_fields" (Val.fdict []) := by
      rw [hsel]
      rfl
    have hrf1 : pget (select_withdraw_bank bank ctx0).1.data
        "required_fields" = some (Val.fieldList (f0 :: fs)) := by
      rw [hdata, pget_pset_ne _ _ _ _ (by decide),
        pget_pset_ne _ _ _ _ (by decide), pget_pset_self]
    have hidx1 : pget (select_withdraw_bank bank ctx0).1.data
        "current_field_index" = some (Val.intv ((0 : ℕ) : Int)) := by
      rw [hdata, pget_pset_ne _ _ _ _ (by decide), pget_pset_self]
      norm_num
    have hwf1 : pget (select_withdraw_bank bank ctx0).1.data
        "withdrawal_fields" = some (Val.fdict []) := by
      rw [hdata, pget_pset_self]
    have hlen1 : 0 + ts.length = (f0 :: fs).length := by
      rw [← hbf, hlen]
      omega
    have hfresh1 : ∀ f ∈ (f0 :: fs).drop 0, pget ([] : List (String × String)) f.name = none := by
      intro f _
      rfl
    have hnodup1 : (((f0 :: fs).drop 0).map RequiredField.name).Nodup := by
      rw [List.drop_zero, ← hbf]
      exact hnodup
    obtain ⟨ctxF, calls, hrun, hst, hwfF, haddrF, hpromF⟩ :=
      runFields_go (f0 :: fs) ts 0 [] _ hrf1 hidx1 hwf1 hlen1 hpos hvalid
        hfresh1 hnodup1
    refine ⟨ctxF, calls, hrun, hst, ?_, ?_, ?_⟩
    · rw [hwfF]
      simp [hbf]
    · rw [haddrF]
      simp [hbf]
    · rw [promptsOf_append, hpromF, hsel]
      simp [promptsOf, hbf]
  · intro bank' hbf'
    simp only [select_withdraw_bank, hbf', proceed_to_amount]
    rfl

/-- C8 counterexample: a bank declaring two required fields that share
the name "acct" — after the two inputs "x" and "y" the dict holds only
the overwritten value, so `withdrawal_address` is "y", not the
comma-join "x, y" of the two collected values the claim requires. -/
theorem C8_counterexample :
    ((runRequiredFields ["x", "y"]
        (select_withdraw_bank (T := Unit) c8Bank
          ⟨some "WithdrawStates:selecting_bank", []⟩).1).map
      (fun p => pget p.1.data "withdrawal_address")) =
      some (some (Val.str "y")) ∧
    ("y" : String) ≠ "x, y" := by
  decide

/-- Witness for C8: a bank with two distinct required fields collects
both values in order and joins them into the withdrawal address. -/
theorem C8_witness :
    (∀ t ∈ (["123", "myName"] : List String), stripWs t.toList ≠ []) ∧
    (∃ ctxF calls,
      runRequiredFields ["123", "myName"]
        (select_withdraw_bank (T := Unit) c8WitBank ⟨none, []⟩).1 =
          some (ctxF, calls)
      ∧ ctxF.fsmState = some WithdrawStates.entering_amount
      ∧ pget ctxF.data "withdrawal_fields" =
          some (.fdict (zipFields c8WitBank.requiredFields ["123", "myName"]))
      ∧ pget ctxF.data "withdrawal_address" =
          some (.str (String.intercalate ", "
            (pvals (zipFields c8WitBank.requiredFields ["123", "myName"]))))
      ∧ promptsOf ((select_withdraw_bank (T := Unit) c8WitBank
            ⟨none, []⟩).2 ++ calls) =
          (c8WitBank.requiredFields.map
            (fun f => "Please enter " ++ f.label ++ ":"))
            ++ ["Enter the withdrawal amount:"]) := by
  refine ⟨by decide, ?_⟩
  exact (C8_required_fields_amended c8WitBank ["123", "myName"] ⟨none, []⟩
    (by decide) (by decide) (by decide) (by decide)).1

end BettingBot
